import Mathlib

/-!
# Request admission for the `/api` mount

A verification development for the Express application of this repository:

* `src/middleware/IsValid.js` (`isValid`),
* `src/middleware/CheckUserAgent.js` (`checkUserAgent`),
* `src/index.js` (`app.use( '/api', isValid, checkUserAgent, userRoutes )`),
* `src/model/schema/User.js` (`userSchema`).

JavaScript values are embedded as the inductive type `JsVal`.  A middleware
function `( req, res, next ) => ...` is embedded as the list of effects its body
performs, in program order, on a given request: all three arguments are only
used for their effects (`console.log`, `res.status`, `res.json`, `next`) and no
result of an effect is inspected by the code.
-/

namespace AdmissionPipeline

/-! ## JavaScript values -/

/-- A JavaScript number: the three non-finite values, or the finite dyadic value
`m * 2 ^ e` (every finite IEEE double has this form, `1.5` is `fin 3 (-1)`). -/
inductive JsNum where
  | nan
  | posInf
  | negInf
  | fin (m : Int) (e : Int)
  deriving Repr, DecidableEq

/-- A JavaScript value as `JSON.parse`, the query-string parser or a property
lookup can produce it; `undefined` is what reading an absent property gives. -/
inductive JsVal where
  | undefined
  | null
  | bool (b : Bool)
  | num (n : JsNum)
  | str (s : String)
  | arr (items : List JsVal)
  | obj (props : List (String × JsVal))
  deriving Repr

/-- Property read `o[ key ]` on the property list of an object: the value of the
property, `undefined` when the object has no such property. -/
def getProp : List (String × JsVal) → String → JsVal
  | [], _ => JsVal.undefined
  | (k, v) :: rest, key => if k = key then v else getProp rest key

/-- The comparison `v === "lit"` against a string literal: true exactly for the
string value with the same characters, with no type conversion. -/
def strictEqStr (v : JsVal) (lit : String) : Bool :=
  match v with
  | JsVal.str s => decide (s = lit)
  | _ => false

/-! ## Requests and effects -/

/-- The part of an Express request the code reads: `req.query` (the parsed
query string), `req.headers` (Node stores header names in lower case and header
values as strings) and `req.body`. -/
structure Request where
  query : List (String × JsVal)
  headers : List (String × String)
  body : JsVal

/-- Header read `req.headers[ name ]`: `none` stands for `undefined`. -/
def getHeader : List (String × String) → String → Option String
  | [], _ => none
  | (k, v) :: rest, name => if k = name then some v else getHeader rest name

/-- JavaScript truthiness of a header value: `undefined` and the empty string are
falsy, every other string is truthy. -/
def headerTruthy : Option String → Bool
  | none => false
  | some s => !(decide (s = ""))

/-- The text a header value contributes to a template literal. -/
def headerText : Option String → String
  | none => "undefined"
  | some s => s

/-- One effect of a middleware body. -/
inductive Effect where
  | log (v : JsVal)
  | status (code : Nat)
  | json (body : JsVal)
  | next
  deriving Repr

/-- A middleware: the effects its body performs on a request, in order. -/
abbrev Middleware := Request → List Effect

/-- Body sent by `isValid` on rejection. -/
def unauthorizedBody : JsVal :=
  JsVal.obj [("message", JsVal.str "Unauthorized: Invalid Token")]

/-- Body sent by `checkUserAgent` on rejection. -/
def missingUserAgentBody : JsVal :=
  JsVal.obj [("message", JsVal.str "Bad Request: Missing User-Agent header")]

/-- The middleware of `src/middleware/IsValid.js`. -/
def isValid : Middleware := fun req =>
  Effect.log (getProp req.query "token") ::
    (if strictEqStr (getProp req.query "token") "123" then
      [Effect.next]
    else
      [Effect.status 401, Effect.json unauthorizedBody])

/-- The middleware of `src/middleware/CheckUserAgent.js`; the commented-out
block of the source is not code. -/
def checkUserAgent : Middleware := fun req =>
  let userAgent := getHeader req.headers "user-agent"
  Effect.log (JsVal.str ("The agent is " ++ headerText userAgent)) ::
    (if !(headerTruthy userAgent) then
      [Effect.status 400, Effect.json missingUserAgentBody]
    else
      [Effect.next])

/-! ## Observing a middleware -/

/-- Number of calls of `next` among the effects. -/
def nextCalls : List Effect → Nat
  | [] => 0
  | Effect.next :: rest => nextCalls rest + 1
  | _ :: rest => nextCalls rest

/-- The responses sent by a run of effects that starts with status code `code`
(Express starts at 200): `res.status` sets the code, `res.json` sends the body
with the current code. -/
def responsesFrom : Nat → List Effect → List (Nat × JsVal)
  | _, [] => []
  | _, Effect.status c :: rest => responsesFrom c rest
  | code, Effect.json b :: rest => (code, b) :: responsesFrom code rest
  | code, _ :: rest => responsesFrom code rest

/-- The responses sent by the effects of one middleware. -/
def responses (es : List Effect) : List (Nat × JsVal) := responsesFrom 200 es

/-! ## The middleware stack of `app.use` -/

/-- The three layers mounted on `/api` in `src/index.js`. -/
inductive Layer where
  | isValid
  | checkUserAgent
  | userRoutes
  deriving Repr, DecidableEq

/-- What an observer of the running stack sees: the router entering a layer, an
effect of a layer other than `next`, or `next` called by the last layer (the
request leaves the stack unhandled). -/
inductive Obs where
  | enter (l : Layer)
  | eff (e : Effect)
  | leave
  deriving Repr

/-- Express runs the layers in registration order: it enters the first layer,
and each call of `next` in a layer runs the layers registered after it. -/
def runStack : List (Layer × Middleware) → Request → List Obs
  | [], _ => [Obs.leave]
  | (l, m) :: rest, req =>
    Obs.enter l :: (m req).flatMap (fun e =>
      match e with
      | Effect.next => runStack rest req
      | e => [Obs.eff e])

/-- The stack of `app.use( '/api', isValid, checkUserAgent, userRoutes )`; the
router `userRoutes` dispatches to handlers of `controller/UserController`, which
is not part of the sources, so it is a parameter. -/
def apiStack (userRoutes : Middleware) : List (Layer × Middleware) :=
  [(Layer.isValid, isValid), (Layer.checkUserAgent, checkUserAgent),
   (Layer.userRoutes, userRoutes)]

/-- A request handled by the `/api` mount. -/
def admission (userRoutes : Middleware) (req : Request) : List Obs :=
  runStack (apiStack userRoutes) req

/-- Number of times the observed run enters layer `l`. -/
def entries (l : Layer) : List Obs → Nat
  | [] => 0
  | Obs.enter k :: rest => (if k = l then 1 else 0) + entries l rest
  | _ :: rest => entries l rest

/-- The responses sent during an observed run, starting from status `code`. -/
def sentFrom : Nat → List Obs → List (Nat × JsVal)
  | _, [] => []
  | _, Obs.eff (Effect.status c) :: rest => sentFrom c rest
  | code, Obs.eff (Effect.json b) :: rest => (code, b) :: sentFrom code rest
  | code, _ :: rest => sentFrom code rest

/-- The responses sent during an observed run. -/
def sent (os : List Obs) : List (Nat × JsVal) := sentFrom 200 os

/-! ## Joi validation of `userSchema`

`src/model/schema/User.js` builds `userSchema` with the Joi library.  The
schema is data; what validating against it means is fixed by Joi.  The part of
Joi the schema exercises is embedded below: the preferences a caller may pass to
`validate`, string-to-number conversion, the presence check, the base check of
the `number` and `string` types, the rules `positive`, `min`, `max` and
`email`, and the key loop of the `object` type.  Joi's number parser and its
email syntax check are parameters (`JoiLib`).  Candidates are plain objects,
given as their own properties in `Object.keys` order.
-/

/-- Result of Joi converting a string where a number is expected: the string
does not look like a number (the value stays a string), it converts to a number,
or it converts with digits lost (Joi reports `number.unsafe`). -/
inductive Coerced where
  | noMatch
  | value (n : JsNum)
  | lossy (n : JsNum)
  deriving Repr

/-- The two functions of the Joi library taken as parameters. -/
structure JoiLib where
  coerceNumber : String → Coerced
  isEmail : String → Bool

/-- The preferences of `schema.validate( value, prefs )` that bear on this
schema. -/
structure Prefs where
  abortEarly : Bool
  convert : Bool
  allowUnknown : Bool
  deriving Repr, DecidableEq

/-- What Joi uses when the caller passes no preferences; `userSchema` sets none
of its own. -/
def defaultPrefs : Prefs :=
  Prefs.mk true true false

/-- The base types used by `userSchema`. -/
inductive BaseType where
  | number
  | string
  deriving Repr, DecidableEq

/-- The rules used by `userSchema`. -/
inductive Rule where
  | positive
  | min (limit : Nat)
  | max (limit : Nat)
  | email
  deriving Repr, DecidableEq

/-- The schema of one key: base type, rules in the order they were added, and
whether `.required()` was called. -/
structure KeySchema where
  base : BaseType
  rules : List Rule
  required : Bool
  deriving Repr

/-- The object schema of `src/model/schema/User.js`. -/
def userSchema : List (String × KeySchema) :=
  [("id", KeySchema.mk BaseType.number [Rule.positive] true),
   ("name", KeySchema.mk BaseType.string [Rule.min 3, Rule.max 100] true),
   ("email", KeySchema.mk BaseType.string [Rule.email] true)]

/-- One reported violation: the key it is about and Joi's error code. -/
structure Violation where
  path : String
  code : String
  deriving Repr, DecidableEq

/-- Result of `validate`: the (possibly converted) value and the violations; the
candidate is accepted when there are none. -/
structure Validation where
  value : List (String × JsVal)
  errors : List Violation

/-- Result of validating the value of one key. -/
structure KeyResult where
  value : JsVal
  errors : List String

/-- The test `v === undefined`. -/
def isUndefined : JsVal → Bool
  | JsVal.undefined => true
  | _ => false

/-- The comparison `n > 0` on numbers. -/
def gtZero : JsNum → Bool
  | JsNum.fin m _ => decide (0 < m)
  | JsNum.posInf => true
  | _ => false

/-- The constant `Number.MAX_SAFE_INTEGER`, which is `2 ^ 53 - 1`. -/
def maxSafeInteger : Nat := 9007199254740991

/-- The test `n > Number.MAX_SAFE_INTEGER || n < Number.MIN_SAFE_INTEGER`. -/
def outOfSafeRange : JsNum → Bool
  | JsNum.fin m e =>
    if 0 ≤ e then decide (maxSafeInteger < m.natAbs * 2 ^ e.toNat)
    else decide (maxSafeInteger * 2 ^ (-e).toNat < m.natAbs)
  | JsNum.posInf => true
  | JsNum.negInf => true
  | JsNum.nan => false

/-- The `length` of a JavaScript string: its number of UTF-16 code units. -/
def utf16Length (s : String) : Nat :=
  (s.toList.map (fun c => if c.toNat < 65536 then 1 else 2)).sum

/-- One value assignment `o[ key ] = v`: replaces the value of an existing
property in place, adds the property at the end otherwise. -/
def setProp : List (String × JsVal) → String → JsVal → List (String × JsVal)
  | [], key, v => [(key, v)]
  | (k, w) :: rest, key, v =>
    if k = key then (k, v) :: rest else (k, w) :: setProp rest key v

/-- The own keys of an object, `Object.keys( o )`, each once. -/
def ownKeys (o : List (String × JsVal)) : List String :=
  (o.map Prod.fst).eraseDups

/-- Conversion step of Joi: with `convert` on, a string offered to a `number`
schema goes through the number parser; no other conversion applies to the
schemas used here.  Returns the value to go on with and the error, if any. -/
def coerceKey (lib : JoiLib) (prefs : Prefs) (base : BaseType) (v : JsVal) :
    JsVal × Option String :=
  match base, v with
  | BaseType.number, JsVal.str t =>
    if prefs.convert then
      match lib.coerceNumber t with
      | Coerced.noMatch => (v, none)
      | Coerced.value n => (JsVal.num n, none)
      | Coerced.lossy n => (JsVal.num n, some "number.unsafe")
    else (v, none)
  | _, _ => (v, none)

/-- Base check of a type on a defined value: the error code when it fails.  For
`number`: infinities, then non-numbers and `NaN`, then the safe range.  For
`string`: non-strings, then the empty string (allowed only with `min( 0 )`). -/
def baseCheck (s : KeySchema) (v : JsVal) : Option String :=
  match s.base, v with
  | BaseType.number, JsVal.num JsNum.posInf => some "number.infinity"
  | BaseType.number, JsVal.num JsNum.negInf => some "number.infinity"
  | BaseType.number, JsVal.num JsNum.nan => some "number.base"
  | BaseType.number, JsVal.num n => if outOfSafeRange n then some "number.unsafe" else none
  | BaseType.number, _ => some "number.base"
  | BaseType.string, JsVal.str t =>
    if t = "" then (if s.rules.contains (Rule.min 0) then none else some "string.empty")
    else none
  | BaseType.string, _ => some "string.base"

/-- One rule on a value that passed the base check: the error code when the
rule fails. -/
def checkRule (lib : JoiLib) : Rule → JsVal → Option String
  | Rule.positive, JsVal.num n => if gtZero n then none else some "number.positive"
  | Rule.min limit, JsVal.str t => if limit ≤ utf16Length t then none else some "string.min"
  | Rule.max limit, JsVal.str t => if utf16Length t ≤ limit then none else some "string.max"
  | Rule.email, JsVal.str t => if lib.isEmail t then none else some "string.email"
  | _, _ => none

/-- The rules of a schema run in order; a failing rule ends the run when
`abortEarly` is on and is collected otherwise. -/
def runRules (lib : JoiLib) (abortEarly : Bool) : List Rule → JsVal → List String
  | [], _ => []
  | r :: rest, v =>
    match checkRule lib r v with
    | some code => if abortEarly then [code] else code :: runRules lib abortEarly rest v
    | none => runRules lib abortEarly rest v

/-- Validation of a value after the conversion step: presence, then the base
check (an error of either ends the validation of this key), then the rules. -/
def checkValue (lib : JoiLib) (prefs : Prefs) (s : KeySchema) (v : JsVal) : KeyResult :=
  if isUndefined v then
    KeyResult.mk v (if s.required then ["any.required"] else [])
  else
    match baseCheck s v with
    | some code => KeyResult.mk v [code]
    | none => KeyResult.mk v (runRules lib prefs.abortEarly s.rules v)

/-- Validation of the value of one key: the conversion step, whose error ends
the validation of this key, then `checkValue` on the converted value. -/
def validateKey (lib : JoiLib) (prefs : Prefs) (s : KeySchema) (item : JsVal) : KeyResult :=
  match coerceKey lib prefs s.base item with
  | (v, some code) => KeyResult.mk v [code]
  | (v, none) => checkValue lib prefs s v

/-- Write-back of a key result into the working copy: `value[ key ] = result.value`
when the result value is defined.  (Joi deletes the key when the result is
undefined for a defined item; no schema used here turns a defined item into
`undefined`, see `coerceKey`.) -/
def writeBack (value : List (String × JsVal)) (key : String) (result : KeyResult) :
    List (String × JsVal) :=
  if isUndefined result.value then value else setProp value key result.value

/-- Where the key loop stands: it returned early (`done`) or goes on (`cont`),
with the working copy of the value and the violations collected so far. -/
inductive Flow where
  | done (value : List (String × JsVal)) (errors : List Violation)
  | cont (value : List (String × JsVal)) (errors : List Violation)

/-- The key loop of the `object` type: each schema key in order is read from
the working copy and validated; with `abortEarly` the first failing key ends
the validation with its errors alone, otherwise its errors are collected; a
defined result value is written back. -/
def validateKeys (lib : JoiLib) (prefs : Prefs) :
    List (String × KeySchema) → List (String × JsVal) → List Violation → Flow
  | [], value, errors => Flow.cont value errors
  | (key, s) :: rest, value, errors =>
    let result := validateKey lib prefs s (getProp value key)
    if result.errors.isEmpty then
      validateKeys lib prefs rest (writeBack value key result) errors
    else if prefs.abortEarly then
      Flow.done value (result.errors.map (Violation.mk key))
    else
      validateKeys lib prefs rest (writeBack value key result)
        (errors ++ result.errors.map (Violation.mk key))

/-- The candidate's keys that the schema does not declare. -/
def unknownKeys (schema : List (String × KeySchema)) (candidate : List (String × JsVal)) :
    List String :=
  (ownKeys candidate).filter (fun k => !((schema.map Prod.fst).contains k))

/-- Undeclared keys, when not allowed: each is an `object.unknown` violation;
with `abortEarly` the first one ends the validation with that error alone. -/
def reportUnknown (prefs : Prefs) :
    List String → List (String × JsVal) → List Violation → Flow
  | [], value, errors => Flow.cont value errors
  | key :: rest, value, errors =>
    if prefs.abortEarly then Flow.done value [Violation.mk key "object.unknown"]
    else reportUnknown prefs rest value (errors ++ [Violation.mk key "object.unknown"])

/-- The call `schema.validate( candidate, prefs )` for an object schema and an
object candidate. -/
def validate (lib : JoiLib) (prefs : Prefs) (schema : List (String × KeySchema))
    (candidate : List (String × JsVal)) : Validation :=
  match validateKeys lib prefs schema candidate [] with
  | Flow.done value errors => Validation.mk value errors
  | Flow.cont value errors =>
    if prefs.allowUnknown then Validation.mk value errors
    else
      match reportUnknown prefs (unknownKeys schema candidate) value errors with
      | Flow.done value2 errors2 => Validation.mk value2 errors2
      | Flow.cont value2 errors2 => Validation.mk value2 errors2

/-- The violations of all schema keys, each key validated on its own against the
candidate, in schema order. -/
def keyErrors (lib : JoiLib) (prefs : Prefs) (candidate : List (String × JsVal)) :
    List (String × KeySchema) → List Violation
  | [] => []
  | (key, s) :: rest =>
    (validateKey lib prefs s (getProp candidate key)).errors.map (Violation.mk key) ++
      keyErrors lib prefs candidate rest

/-- The `object.unknown` violations of the undeclared keys, none when unknown
keys are allowed. -/
def unknownErrors (prefs : Prefs) (schema : List (String × KeySchema))
    (candidate : List (String × JsVal)) : List Violation :=
  if prefs.allowUnknown then []
  else (unknownKeys schema candidate).map (fun k => Violation.mk k "object.unknown")

/-- Every violation present in the candidate: those of the schema keys, then
those of the undeclared keys. -/
def allViolations (lib : JoiLib) (prefs : Prefs) (schema : List (String × KeySchema))
    (candidate : List (String × JsVal)) : List Violation :=
  keyErrors lib prefs candidate schema ++ unknownErrors prefs schema candidate

/-- A candidate with the id `1.5`, a valid name and a valid email. -/
def fractionalId : List (String × JsVal) :=
  [("id", JsVal.num (JsNum.fin 3 (-1))), ("name", JsVal.str "Ann"),
   ("email", JsVal.str "ann@example.com")]

/-- A stand-in for the library parameters that agrees with Joi on the strings
used in the examples below: Joi converts the string `42` to the number 42, and
its email check accepts `ann@example.com` and rejects `not-an-email`. -/
def exampleLib : JoiLib :=
  JoiLib.mk (fun t => if t = "42" then Coerced.value (JsNum.fin 42 0) else Coerced.noMatch)
    (fun t => decide (t = "ann@example.com"))

/-! ## The two gates -/

theorem strictEqStr_iff (v : JsVal) (lit : String) :
    strictEqStr v lit = true ↔ v = JsVal.str lit := by
  cases v <;> simp [strictEqStr]

theorem headerTruthy_false_iff (h : Option String) :
    headerTruthy h = false ↔ h = none ∨ h = some "" := by
  cases h <;> simp [headerTruthy]

theorem isValid_of_match (req : Request)
    (h : getProp req.query "token" = JsVal.str "123") :
    isValid req = [Effect.log (JsVal.str "123"), Effect.next] := by
  have hs := (strictEqStr_iff _ _).mpr h
  simp only [isValid, hs, if_true]
  rw [h]

theorem isValid_of_mismatch (req : Request)
    (h : getProp req.query "token" ≠ JsVal.str "123") :
    isValid req =
      [Effect.log (getProp req.query "token"), Effect.status 401,
       Effect.json unauthorizedBody] := by
  have hs : strictEqStr (getProp req.query "token") "123" = false := by
    cases hb : strictEqStr (getProp req.query "token") "123"
    · rfl
    · exact absurd ((strictEqStr_iff _ _).mp hb) h
  simp [isValid, hs]

theorem checkUserAgent_of_falsy (req : Request)
    (h : getHeader req.headers "user-agent" = none ∨
      getHeader req.headers "user-agent" = some "") :
    checkUserAgent req =
      [Effect.log (JsVal.str ("The agent is " ++
          headerText (getHeader req.headers "user-agent"))),
       Effect.status 400, Effect.json missingUserAgentBody] := by
  have hs := (headerTruthy_false_iff _).mpr h
  simp [checkUserAgent, hs]

theorem checkUserAgent_of_truthy (req : Request) (s : String)
    (h : getHeader req.headers "user-agent" = some s) (hs : s ≠ "") :
    checkUserAgent req = [Effect.log (JsVal.str ("The agent is " ++ s)), Effect.next] := by
  simp [checkUserAgent, h, headerTruthy, headerText, hs]

/-- C1: `isValid` passes (one call of `next`, no response) exactly when the
`token` query parameter is the string `"123"`; for every other value, an absent
token and the empty string included, it does not call `next` and answers 401
with the body `message: "Unauthorized: Invalid Token"`. -/
theorem isValid_passes_iff_token (req : Request) :
    ((nextCalls (isValid req) = 1 ∧ responses (isValid req) = []) ↔
      getProp req.query "token" = JsVal.str "123") ∧
    (getProp req.query "token" ≠ JsVal.str "123" →
      nextCalls (isValid req) = 0 ∧
      responses (isValid req) = [(401, unauthorizedBody)]) := by
  by_cases h : getProp req.query "token" = JsVal.str "123"
  · refine ⟨⟨fun _ => h, fun _ => ?_⟩, fun hne => absurd h hne⟩
    rw [isValid_of_match req h]
    exact ⟨rfl, rfl⟩
  · have hr := isValid_of_mismatch req h
    refine ⟨⟨fun hp => ?_, fun he => absurd he h⟩, fun _ => ?_⟩
    · rw [hr] at hp
      exact absurd hp.1 (by simp [nextCalls])
    · rw [hr]
      exact ⟨rfl, rfl⟩

/-- Witness of C1 at an absent token, at the empty token and at the token
`"123"`. -/
theorem isValid_passes_iff_token_witness :
    (nextCalls (isValid (Request.mk [] [] JsVal.undefined)) = 0 ∧
      responses (isValid (Request.mk [] [] JsVal.undefined)) =
        [(401, unauthorizedBody)]) ∧
    (nextCalls (isValid (Request.mk [("token", JsVal.str "")] [] JsVal.undefined)) = 0 ∧
      responses (isValid (Request.mk [("token", JsVal.str "")] [] JsVal.undefined)) = [(401, unauthorizedBody)]) ∧
    (nextCalls (isValid (Request.mk [("token", JsVal.str "123")] [] JsVal.undefined)) = 1 ∧
      responses (isValid (Request.mk [("token", JsVal.str "123")] [] JsVal.undefined)) = []) :=
  ⟨(isValid_passes_iff_token (Request.mk [] [] JsVal.undefined)).2
      (by simp [getProp]),
   (isValid_passes_iff_token (Request.mk [("token", JsVal.str "")] [] JsVal.undefined)).2 (by simp [getProp]),
   (isValid_passes_iff_token (Request.mk [("token", JsVal.str "123")] [] JsVal.undefined)).1.mpr (by simp [getProp])⟩

/-- C2: `checkUserAgent` answers 400 with the body
`message: "Bad Request: Missing User-Agent header"` and does not call `next`
when the `user-agent` header is missing or empty; for every other header value,
whatever it is, it calls `next` once and sends no response. -/
theorem checkUserAgent_presence_only (req : Request) :
    ((getHeader req.headers "user-agent" = none ∨
        getHeader req.headers "user-agent" = some "") →
      nextCalls (checkUserAgent req) = 0 ∧
      responses (checkUserAgent req) = [(400, missingUserAgentBody)]) ∧
    (∀ s : String, getHeader req.headers "user-agent" = some s → s ≠ "" →
      nextCalls (checkUserAgent req) = 1 ∧ responses (checkUserAgent req) = []) := by
  refine ⟨fun h => ?_, fun s h hs => ?_⟩
  · rw [checkUserAgent_of_falsy req h]
    exact ⟨rfl, rfl⟩
  · rw [checkUserAgent_of_truthy req s h hs]
    exact ⟨rfl, rfl⟩

/-- Witness of C2 at a missing header, at an empty header and at the header
value `curl/8.0`. -/
theorem checkUserAgent_presence_only_witness :
    (nextCalls (checkUserAgent (Request.mk [] [] JsVal.undefined)) = 0 ∧
      responses (checkUserAgent (Request.mk [] [] JsVal.undefined)) =
        [(400, missingUserAgentBody)]) ∧
    (nextCalls (checkUserAgent (Request.mk [] [("user-agent", "")] JsVal.undefined)) = 0 ∧
      responses (checkUserAgent (Request.mk [] [("user-agent", "")] JsVal.undefined)) = [(400, missingUserAgentBody)]) ∧
    (nextCalls (checkUserAgent (Request.mk [] [("user-agent", "curl/8.0")] JsVal.undefined)) = 1 ∧
      responses (checkUserAgent (Request.mk [] [("user-agent", "curl/8.0")] JsVal.undefined)) = []) :=
  ⟨(checkUserAgent_presence_only (Request.mk [] [] JsVal.undefined)).1
      (Or.inl rfl),
   (checkUserAgent_presence_only (Request.mk [] [("user-agent", "")] JsVal.undefined)).1 (Or.inr (by simp [getHeader])),
   (checkUserAgent_presence_only (Request.mk [] [("user-agent", "curl/8.0")] JsVal.undefined)).2 "curl/8.0" (by simp [getHeader]) (by decide)⟩

/-! ## The stack mounted on `/api` -/

theorem admission_of_mismatch (userRoutes : Middleware) (req : Request)
    (h : getProp req.query "token" ≠ JsVal.str "123") :
    admission userRoutes req =
      [Obs.enter Layer.isValid, Obs.eff (Effect.log (getProp req.query "token")),
       Obs.eff (Effect.status 401), Obs.eff (Effect.json unauthorizedBody)] := by
  simp [admission, apiStack, runStack, isValid_of_mismatch req h]

theorem admission_of_falsy (userRoutes : Middleware) (req : Request)
    (ht : getProp req.query "token" = JsVal.str "123")
    (h : getHeader req.headers "user-agent" = none ∨
      getHeader req.headers "user-agent" = some "") :
    admission userRoutes req =
      [Obs.enter Layer.isValid, Obs.eff (Effect.log (JsVal.str "123")),
       Obs.enter Layer.checkUserAgent,
       Obs.eff (Effect.log (JsVal.str ("The agent is " ++
          headerText (getHeader req.headers "user-agent")))),
       Obs.eff (Effect.status 400), Obs.eff (Effect.json missingUserAgentBody)] := by
  simp [admission, apiStack, runStack, isValid_of_match req ht, checkUserAgent_of_falsy req h]

theorem admission_of_pass (userRoutes : Middleware) (req : Request) (s : String)
    (ht : getProp req.query "token" = JsVal.str "123")
    (h : getHeader req.headers "user-agent" = some s) (hs : s ≠ "") :
    admission userRoutes req =
      [Obs.enter Layer.isValid, Obs.eff (Effect.log (JsVal.str "123")),
       Obs.enter Layer.checkUserAgent,
       Obs.eff (Effect.log (JsVal.str ("The agent is " ++ s)))] ++
      runStack [(Layer.userRoutes, userRoutes)] req := by
  simp [admission, apiStack, runStack, isValid_of_match req ht,
    checkUserAgent_of_truthy req s h hs]

theorem entries_last_layer (l : Layer) (es : List Effect) :
    entries l (es.flatMap (fun e =>
      match e with
      | Effect.next => [Obs.leave]
      | e => [Obs.eff e])) = 0 := by
  induction es with
  | nil => rfl
  | cons e rest ih =>
    cases e <;> simpa [List.flatMap_cons, entries] using ih

theorem entries_append (l : Layer) (xs ys : List Obs) :
    entries l (xs ++ ys) = entries l xs + entries l ys := by
  induction xs with
  | nil => simp [entries]
  | cons o rest ih =>
    cases o <;> simp [entries, ih, Nat.add_assoc]

theorem entries_userRoutes_alone (userRoutes : Middleware) (req : Request) :
    entries Layer.userRoutes (runStack [(Layer.userRoutes, userRoutes)] req) = 1 := by
  simp only [runStack, entries, if_true]
  rw [entries_last_layer]

theorem header_cases (h : Option String) :
    (h = none ∨ h = some "") ∨ ∃ s : String, h = some s ∧ s ≠ "" := by
  cases h with
  | none => exact Or.inl (Or.inl rfl)
  | some s =>
    by_cases hs : s = ""
    · exact Or.inl (Or.inr (by rw [hs]))
    · exact Or.inr ⟨s, rfl, hs⟩

/-- C3: for every request whose `token` is absent or is not the string `"123"`,
whatever its User-Agent header, the `/api` stack answers 401 with the body
`message: "Unauthorized: Invalid Token"`, and neither `checkUserAgent` nor the
router with the handlers is entered: the run consists of `isValid` alone. -/
theorem admission_bad_token_401 (userRoutes : Middleware) (req : Request)
    (h : getProp req.query "token" ≠ JsVal.str "123") :
    sent (admission userRoutes req) = [(401, unauthorizedBody)] ∧
    entries Layer.checkUserAgent (admission userRoutes req) = 0 ∧
    entries Layer.userRoutes (admission userRoutes req) = 0 ∧
    admission userRoutes req =
      [Obs.enter Layer.isValid, Obs.eff (Effect.log (getProp req.query "token")),
       Obs.eff (Effect.status 401), Obs.eff (Effect.json unauthorizedBody)] := by
  rw [admission_of_mismatch userRoutes req h]
  exact ⟨rfl, rfl, rfl, rfl⟩

/-- Witness of C3: the token `wrong` with a valid User-Agent header, and a
handler that would answer 200. -/
theorem admission_bad_token_401_witness :
    sent (admission (fun _ => [Effect.status 200, Effect.json (JsVal.arr [])])
      (Request.mk [("token", JsVal.str "wrong")] [("user-agent", "test-agent")]
        JsVal.undefined)) = [(401, unauthorizedBody)] :=
  (admission_bad_token_401 (fun _ => [Effect.status 200, Effect.json (JsVal.arr [])])
    (Request.mk [("token", JsVal.str "wrong")] [("user-agent", "test-agent")]
      JsVal.undefined) (by simp [getProp])).1

theorem admission_entries_of_pass (userRoutes : Middleware) (req : Request) (s : String)
    (ht : getProp req.query "token" = JsVal.str "123")
    (h : getHeader req.headers "user-agent" = some s) (hs : s ≠ "") :
    entries Layer.userRoutes (admission userRoutes req) = 1 := by
  rw [admission_of_pass userRoutes req s ht h hs, entries_append,
    entries_userRoutes_alone]
  rfl

theorem admission_entries_of_reject (userRoutes : Middleware) (req : Request)
    (h : ¬ (getProp req.query "token" = JsVal.str "123" ∧
      ∃ s : String, getHeader req.headers "user-agent" = some s ∧ s ≠ "")) :
    entries Layer.userRoutes (admission userRoutes req) = 0 ∧
    (sent (admission userRoutes req) = [(401, unauthorizedBody)] ∨
      sent (admission userRoutes req) = [(400, missingUserAgentBody)]) := by
  by_cases ht : getProp req.query "token" = JsVal.str "123"
  · rcases header_cases (getHeader req.headers "user-agent") with hf | ⟨s, hsome, hs⟩
    · rw [admission_of_falsy userRoutes req ht hf]
      exact ⟨rfl, Or.inr rfl⟩
    · exact absurd ⟨ht, s, hsome, hs⟩ h
  · rw [admission_of_mismatch userRoutes req ht]
    exact ⟨rfl, Or.inl rfl⟩

/-- C4 as stated fails: a request with no User-Agent header and no token is
answered 401, not 400, and `isValid` is entered. -/
theorem admission_missing_header_counterexample :
    getHeader (Request.mk [] [] JsVal.undefined).headers "user-agent" = none ∧
    sent (admission (fun _ => []) (Request.mk [] [] JsVal.undefined)) =
      [(401, unauthorizedBody)] ∧
    entries Layer.isValid (admission (fun _ => []) (Request.mk [] [] JsVal.undefined)) = 1 :=
  ⟨rfl, rfl, rfl⟩

/-- C4 (amended): for every request whose User-Agent header is missing or empty,
the `/api` stack enters `isValid` first and never enters the router with the
handlers; it answers 400 when the token is `"123"` and 401 when it is not. -/
theorem admission_missing_header (userRoutes : Middleware) (req : Request)
    (h : getHeader req.headers "user-agent" = none ∨
      getHeader req.headers "user-agent" = some "") :
    entries Layer.isValid (admission userRoutes req) = 1 ∧
    entries Layer.userRoutes (admission userRoutes req) = 0 ∧
    (getProp req.query "token" = JsVal.str "123" →
      sent (admission userRoutes req) = [(400, missingUserAgentBody)]) ∧
    (getProp req.query "token" ≠ JsVal.str "123" →
      sent (admission userRoutes req) = [(401, unauthorizedBody)]) := by
  by_cases ht : getProp req.query "token" = JsVal.str "123"
  · rw [admission_of_falsy userRoutes req ht h]
    exact ⟨rfl, rfl, fun _ => rfl, fun hne => absurd ht hne⟩
  · rw [admission_of_mismatch userRoutes req ht]
    exact ⟨rfl, rfl, fun he => absurd he ht, fun _ => rfl⟩

/-- Witness of amended C4: token `"123"` and no User-Agent header. -/
theorem admission_missing_header_witness :
    entries Layer.isValid (admission (fun _ => [])
      (Request.mk [("token", JsVal.str "123")] [] JsVal.undefined)) = 1 ∧
    sent (admission (fun _ => [])
      (Request.mk [("token", JsVal.str "123")] [] JsVal.undefined)) =
      [(400, missingUserAgentBody)] :=
  ⟨(admission_missing_header (fun _ => [])
      (Request.mk [("token", JsVal.str "123")] [] JsVal.undefined) (Or.inl rfl)).1,
   (admission_missing_header (fun _ => [])
      (Request.mk [("token", JsVal.str "123")] [] JsVal.undefined) (Or.inl rfl)).2.2.1
      (by simp [getProp])⟩

/-- C5: the `/api` stack enters the router `userRoutes` exactly when the token is
`"123"` and the User-Agent header is present and non-empty.  When it does, the
run is the two gates, each entered once and doing nothing but its log, followed
by one run of the router; when it does not, the router is never entered and
exactly one response is sent, the 401 of `isValid` or the 400 of
`checkUserAgent`. -/
theorem admission_forwards_iff (userRoutes : Middleware) (req : Request) :
    (entries Layer.userRoutes (admission userRoutes req) = 1 ↔
      (getProp req.query "token" = JsVal.str "123" ∧
        ∃ s : String, getHeader req.headers "user-agent" = some s ∧ s ≠ "")) ∧
    (∀ s : String, getProp req.query "token" = JsVal.str "123" →
      getHeader req.headers "user-agent" = some s → s ≠ "" →
      admission userRoutes req =
        [Obs.enter Layer.isValid, Obs.eff (Effect.log (JsVal.str "123")),
         Obs.enter Layer.checkUserAgent,
         Obs.eff (Effect.log (JsVal.str ("The agent is " ++ s)))] ++
        runStack [(Layer.userRoutes, userRoutes)] req) ∧
    (¬ (getProp req.query "token" = JsVal.str "123" ∧
        ∃ s : String, getHeader req.headers "user-agent" = some s ∧ s ≠ "") →
      entries Layer.userRoutes (admission userRoutes req) = 0 ∧
      (sent (admission userRoutes req) = [(401, unauthorizedBody)] ∨
        sent (admission userRoutes req) = [(400, missingUserAgentBody)])) := by
  refine ⟨⟨fun h1 => ?_, fun ⟨ht, s, hsome, hs⟩ =>
      admission_entries_of_pass userRoutes req s ht hsome hs⟩,
    fun s ht hsome hs => admission_of_pass userRoutes req s ht hsome hs,
    fun hn => admission_entries_of_reject userRoutes req hn⟩
  by_contra hn
  have h0 := (admission_entries_of_reject userRoutes req hn).1
  omega

/-- Witness of C5: token `"123"` with the header `test-agent` is forwarded once,
and token `"123"` with an empty header is answered 400 and not forwarded. -/
theorem admission_forwards_iff_witness :
    entries Layer.userRoutes (admission (fun _ => [Effect.status 200, Effect.json (JsVal.arr [])])
      (Request.mk [("token", JsVal.str "123")] [("user-agent", "test-agent")]
        JsVal.undefined)) = 1 ∧
    entries Layer.userRoutes (admission (fun _ => [Effect.status 200, Effect.json (JsVal.arr [])])
      (Request.mk [("token", JsVal.str "123")] [("user-agent", "")] JsVal.undefined)) = 0 :=
  ⟨(admission_forwards_iff (fun _ => [Effect.status 200, Effect.json (JsVal.arr [])])
      (Request.mk [("token", JsVal.str "123")] [("user-agent", "test-agent")]
        JsVal.undefined)).1.mpr
      ⟨by simp [getProp], "test-agent", by simp [getHeader], by decide⟩,
   ((admission_forwards_iff (fun _ => [Effect.status 200, Effect.json (JsVal.arr [])])
      (Request.mk [("token", JsVal.str "123")] [("user-agent", "")] JsVal.undefined)).2.2
      (by simp [getHeader])).1⟩

/-- C6: for every request with token `"123"` and a missing or empty User-Agent
header, the `/api` stack answers 400 with the body
`message: "Bad Request: Missing User-Agent header"`, and the router with the
handlers is not entered. -/
theorem admission_token_ok_no_agent_400 (userRoutes : Middleware) (req : Request)
    (ht : getProp req.query "token" = JsVal.str "123")
    (h : getHeader req.headers "user-agent" = none ∨
      getHeader req.headers "user-agent" = some "") :
    sent (admission userRoutes req) = [(400, missingUserAgentBody)] ∧
    entries Layer.userRoutes (admission userRoutes req) = 0 := by
  rw [admission_of_falsy userRoutes req ht h]
  exact ⟨rfl, rfl⟩

/-- Witness of C6: `GET /api/users?token=123` without a User-Agent header and
with a handler that would answer 200. -/
theorem admission_token_ok_no_agent_400_witness :
    sent (admission (fun _ => [Effect.status 200, Effect.json (JsVal.arr [])])
      (Request.mk [("token", JsVal.str "123")] [] JsVal.undefined)) =
      [(400, missingUserAgentBody)] ∧
    entries Layer.userRoutes (admission (fun _ => [Effect.status 200, Effect.json (JsVal.arr [])])
      (Request.mk [("token", JsVal.str "123")] [] JsVal.undefined)) = 0 :=
  admission_token_ok_no_agent_400 (fun _ => [Effect.status 200, Effect.json (JsVal.arr [])])
    (Request.mk [("token", JsVal.str "123")] [] JsVal.undefined) (by simp [getProp])
    (Or.inl rfl)

/-! ## Rejections do not depend on the credential -/

theorem responses_isValid_const (req : Request) :
    responses (isValid req) = [] ∨ responses (isValid req) = [(401, unauthorizedBody)] := by
  by_cases h : getProp req.query "token" = JsVal.str "123"
  · rw [isValid_of_match req h]
    exact Or.inl rfl
  · rw [isValid_of_mismatch req h]
    exact Or.inr rfl

theorem responses_checkUserAgent_const (req : Request) :
    responses (checkUserAgent req) = [] ∨
      responses (checkUserAgent req) = [(400, missingUserAgentBody)] := by
  rcases header_cases (getHeader req.headers "user-agent") with hf | ⟨s, hsome, hs⟩
  · rw [checkUserAgent_of_falsy req hf]
    exact Or.inr rfl
  · rw [checkUserAgent_of_truthy req s hsome hs]
    exact Or.inl rfl

/-- C9 as stated fails: two requests without a User-Agent header that differ
only in their token, `"123"` and `"abc"`, are both rejected, the first with 400
and the second with 401. -/
theorem rejection_depends_on_token_counterexample :
    (Request.mk [("token", JsVal.str "123")] [] JsVal.undefined).headers =
      (Request.mk [("token", JsVal.str "abc")] [] JsVal.undefined).headers ∧
    (Request.mk [("token", JsVal.str "123")] [] JsVal.undefined).body =
      (Request.mk [("token", JsVal.str "abc")] [] JsVal.undefined).body ∧
    entries Layer.userRoutes (admission (fun _ => [])
      (Request.mk [("token", JsVal.str "123")] [] JsVal.undefined)) = 0 ∧
    entries Layer.userRoutes (admission (fun _ => [])
      (Request.mk [("token", JsVal.str "abc")] [] JsVal.undefined)) = 0 ∧
    sent (admission (fun _ => [])
      (Request.mk [("token", JsVal.str "123")] [] JsVal.undefined)) =
      [(400, missingUserAgentBody)] ∧
    sent (admission (fun _ => [])
      (Request.mk [("token", JsVal.str "abc")] [] JsVal.undefined)) =
      [(401, unauthorizedBody)] ∧
    sent (admission (fun _ => [])
      (Request.mk [("token", JsVal.str "123")] [] JsVal.undefined)) ≠
    sent (admission (fun _ => [])
      (Request.mk [("token", JsVal.str "abc")] [] JsVal.undefined)) := by
  refine ⟨rfl, rfl, rfl, rfl, rfl, rfl, ?_⟩
  intro h
  have h2 : ([(400, missingUserAgentBody)] : List (Nat × JsVal)) =
      [(401, unauthorizedBody)] := h
  simp at h2

/-- C9 (amended): two requests that are both rejected by the `/api` stack, and
whose tokens are both `"123"` or both different from `"123"`, get the same status
code and the same body; and the response of each gate, when it sends one, is a
constant: 401 with `unauthorizedBody` for `isValid`, 400 with
`missingUserAgentBody` for `checkUserAgent`, whatever the token and the header
value are. -/
theorem rejection_same_gate_same_response (userRoutes : Middleware) (r1 r2 : Request)
    (h1 : entries Layer.userRoutes (admission userRoutes r1) = 0)
    (h2 : entries Layer.userRoutes (admission userRoutes r2) = 0)
    (hsame : getProp r1.query "token" = JsVal.str "123" ↔
      getProp r2.query "token" = JsVal.str "123") :
    sent (admission userRoutes r1) = sent (admission userRoutes r2) ∧
    (∀ req : Request, responses (isValid req) = [] ∨
      responses (isValid req) = [(401, unauthorizedBody)]) ∧
    (∀ req : Request, responses (checkUserAgent req) = [] ∨
      responses (checkUserAgent req) = [(400, missingUserAgentBody)]) := by
  refine ⟨?_, responses_isValid_const, responses_checkUserAgent_const⟩
  by_cases ht : getProp r1.query "token" = JsVal.str "123"
  · have ht2 := hsame.mp ht
    rcases header_cases (getHeader r1.headers "user-agent") with hf1 | ⟨s, hsome, hs⟩
    · rcases header_cases (getHeader r2.headers "user-agent") with hf2 | ⟨s, hsome, hs⟩
      · rw [admission_of_falsy userRoutes r1 ht hf1, admission_of_falsy userRoutes r2 ht2 hf2]
        rfl
      · rw [admission_entries_of_pass userRoutes r2 s ht2 hsome hs] at h2
        exact absurd h2 (by decide)
    · rw [admission_entries_of_pass userRoutes r1 s ht hsome hs] at h1
      exact absurd h1 (by decide)
  · have ht2 : getProp r2.query "token" ≠ JsVal.str "123" := fun h => ht (hsame.mpr h)
    rw [admission_of_mismatch userRoutes r1 ht, admission_of_mismatch userRoutes r2 ht2]
    rfl

/-- Witness of amended C9: the tokens `"abc"` and `"xyz"`, no User-Agent
header. -/
theorem rejection_same_gate_same_response_witness :
    sent (admission (fun _ => [])
      (Request.mk [("token", JsVal.str "abc")] [] JsVal.undefined)) =
    sent (admission (fun _ => [])
      (Request.mk [("token", JsVal.str "xyz")] [] JsVal.undefined)) :=
  (rejection_same_gate_same_response (fun _ => [])
    (Request.mk [("token", JsVal.str "abc")] [] JsVal.undefined)
    (Request.mk [("token", JsVal.str "xyz")] [] JsVal.undefined) rfl rfl
    (by simp [getProp])).1

/-! ## Properties of the Joi embedding -/

theorem getProp_setProp_eq (o : List (String × JsVal)) (k : String) (v : JsVal) :
    getProp (setProp o k v) k = v := by
  induction o with
  | nil => simp [setProp, getProp]
  | cons p rest ih =>
    obtain ⟨k1, w⟩ := p
    by_cases h : k1 = k
    · simp [setProp, getProp, h]
    · simp [setProp, getProp, h, ih]

theorem getProp_setProp_ne (o : List (String × JsVal)) (k k2 : String) (v : JsVal)
    (hne : k ≠ k2) : getProp (setProp o k v) k2 = getProp o k2 := by
  induction o with
  | nil => simp [setProp, getProp, hne]
  | cons p rest ih =>
    obtain ⟨k1, w⟩ := p
    by_cases h : k1 = k
    · subst h
      simp [setProp, getProp, hne]
    · by_cases h2 : k1 = k2
      · subst h2
        simp [setProp, getProp, h]
      · simp [setProp, getProp, h, h2, ih]

theorem getProp_writeBack_ne (o : List (String × JsVal)) (k k2 : String) (r : KeyResult)
    (hne : k ≠ k2) : getProp (writeBack o k r) k2 = getProp o k2 := by
  unfold writeBack
  split
  · rfl
  · exact getProp_setProp_ne o k k2 r.value hne

theorem keyErrors_congr (lib : JoiLib) (prefs : Prefs) (a b : List (String × JsVal))
    (schema : List (String × KeySchema))
    (h : ∀ k ∈ schema.map Prod.fst, getProp a k = getProp b k) :
    keyErrors lib prefs a schema = keyErrors lib prefs b schema := by
  induction schema with
  | nil => rfl
  | cons p rest ih =>
    obtain ⟨k, s⟩ := p
    have hk : getProp a k = getProp b k := h k (by simp)
    have hrest : ∀ k2 ∈ rest.map Prod.fst, getProp a k2 = getProp b k2 :=
      fun k2 hk2 => h k2 (by simp at hk2 ⊢; exact Or.inr hk2)
    simp only [keyErrors, hk, ih hrest]

theorem keyErrors_writeBack (lib : JoiLib) (prefs : Prefs) (o : List (String × JsVal))
    (k : String) (r : KeyResult) (schema : List (String × KeySchema))
    (hk : k ∉ schema.map Prod.fst) :
    keyErrors lib prefs (writeBack o k r) schema = keyErrors lib prefs o schema := by
  apply keyErrors_congr
  intro k2 hk2
  apply getProp_writeBack_ne
  intro h
  exact hk (h ▸ hk2)

theorem runRules_abort_length (lib : JoiLib) (rules : List Rule) (v : JsVal) :
    (runRules lib true rules v).length ≤ 1 := by
  induction rules with
  | nil => simp [runRules]
  | cons r rest ih =>
    simp only [runRules]
    split
    · simp
    · exact ih

theorem validateKey_abort_length (lib : JoiLib) (prefs : Prefs) (s : KeySchema) (item : JsVal)
    (h : prefs.abortEarly = true) : (validateKey lib prefs s item).errors.length ≤ 1 := by
  unfold validateKey
  split
  · simp
  · unfold checkValue
    split
    · split <;> simp
    · split
      · simp
      · rw [h]
        exact runRules_abort_length lib s.rules _

theorem validateKeys_collect (lib : JoiLib) (prefs : Prefs) (h : prefs.abortEarly = false)
    (schema : List (String × KeySchema)) :
    (schema.map Prod.fst).Nodup → ∀ (value : List (String × JsVal)) (errs : List Violation),
      ∃ v2, validateKeys lib prefs schema value errs =
        Flow.cont v2 (errs ++ keyErrors lib prefs value schema) := by
  induction schema with
  | nil =>
    intro _ value errs
    exact ⟨value, by simp [validateKeys, keyErrors]⟩
  | cons p rest ih =>
    obtain ⟨k, s⟩ := p
    intro hnd value errs
    have hk : k ∉ rest.map Prod.fst := (List.nodup_cons.mp hnd).1
    have hrest := (List.nodup_cons.mp hnd).2
    simp only [validateKeys, keyErrors, h]
    by_cases he : (validateKey lib prefs s (getProp value k)).errors.isEmpty = true
    · obtain ⟨v2, hv2⟩ := ih hrest (writeBack value k (validateKey lib prefs s (getProp value k))) errs
      refine ⟨v2, ?_⟩
      rw [if_pos he, hv2, keyErrors_writeBack lib prefs value k _ rest hk]
      have hnil : (validateKey lib prefs s (getProp value k)).errors = [] :=
        List.isEmpty_iff.mp he
      simp [hnil]
    · obtain ⟨v2, hv2⟩ := ih hrest (writeBack value k (validateKey lib prefs s (getProp value k)))
        (errs ++ (validateKey lib prefs s (getProp value k)).errors.map (Violation.mk k))
      refine ⟨v2, ?_⟩
      rw [if_neg he, hv2, keyErrors_writeBack lib prefs value k _ rest hk]
      simp

theorem validateKeys_abort (lib : JoiLib) (prefs : Prefs) (h : prefs.abortEarly = true)
    (schema : List (String × KeySchema)) :
    (schema.map Prod.fst).Nodup → ∀ (value : List (String × JsVal)) (errs : List Violation),
      ∃ v2, validateKeys lib prefs schema value errs =
        if (keyErrors lib prefs value schema).isEmpty then Flow.cont v2 errs
        else Flow.done v2 ((keyErrors lib prefs value schema).take 1) := by
  induction schema with
  | nil =>
    intro _ value errs
    exact ⟨value, by simp [validateKeys, keyErrors]⟩
  | cons p rest ih =>
    obtain ⟨k, s⟩ := p
    intro hnd value errs
    have hk : k ∉ rest.map Prod.fst := (List.nodup_cons.mp hnd).1
    have hrest := (List.nodup_cons.mp hnd).2
    simp only [validateKeys, keyErrors, h]
    by_cases he : (validateKey lib prefs s (getProp value k)).errors.isEmpty = true
    · obtain ⟨v2, hv2⟩ := ih hrest (writeBack value k (validateKey lib prefs s (getProp value k))) errs
      refine ⟨v2, ?_⟩
      rw [if_pos he, hv2, keyErrors_writeBack lib prefs value k _ rest hk]
      have hnil : (validateKey lib prefs s (getProp value k)).errors = [] :=
        List.isEmpty_iff.mp he
      simp [hnil]
    · refine ⟨value, ?_⟩
      rw [if_neg he]
      have hlen := validateKey_abort_length lib prefs s (getProp value k) h
      cases hes : (validateKey lib prefs s (getProp value k)).errors with
      | nil => simp [hes] at he
      | cons e tl =>
        rw [hes] at hlen
        have htl : tl = [] := by
          cases tl with
          | nil => rfl
          | cons _ _ => simp at hlen
        simp [htl]

theorem reportUnknown_collect (prefs : Prefs) (h : prefs.abortEarly = false)
    (keys : List String) (value : List (String × JsVal)) (errs : List Violation) :
    reportUnknown prefs keys value errs =
      Flow.cont value (errs ++ keys.map (fun k => Violation.mk k "object.unknown")) := by
  induction keys generalizing errs with
  | nil => simp [reportUnknown]
  | cons k rest ih => simp [reportUnknown, h, ih]

theorem reportUnknown_abort (prefs : Prefs) (h : prefs.abortEarly = true)
    (keys : List String) (value : List (String × JsVal)) (errs : List Violation) :
    reportUnknown prefs keys value errs =
      if keys.isEmpty then Flow.cont value errs
      else Flow.done value ((keys.map (fun k => Violation.mk k "object.unknown")).take 1) := by
  cases keys with
  | nil => simp [reportUnknown]
  | cons k rest => simp [reportUnknown, h]

/-- What `validate` reports, for a schema whose keys are distinct: every
violation present when `abortEarly` is off, the first of them when it is on. -/
theorem validate_errors (lib : JoiLib) (prefs : Prefs) (schema : List (String × KeySchema))
    (hnd : (schema.map Prod.fst).Nodup) (c : List (String × JsVal)) :
    (validate lib prefs schema c).errors =
      if prefs.abortEarly then (allViolations lib prefs schema c).take 1
      else allViolations lib prefs schema c := by
  cases h : prefs.abortEarly with
  | false =>
    obtain ⟨v2, hv2⟩ := validateKeys_collect lib prefs h schema hnd c []
    simp only [validate, hv2, allViolations, unknownErrors, List.nil_append]
    by_cases ha : prefs.allowUnknown = true
    · simp [ha]
    · simp [ha, reportUnknown_collect prefs h]
  | true =>
    obtain ⟨v2, hv2⟩ := validateKeys_abort lib prefs h schema hnd c []
    simp only [validate, hv2, allViolations, unknownErrors]
    cases hke : keyErrors lib prefs c schema with
    | nil =>
      by_cases ha : prefs.allowUnknown = true
      · simp [ha]
      · simp only [List.isEmpty_nil, if_true, ha, reportUnknown_abort prefs h]
        cases unknownKeys schema c <;> simp
    | cons e tl => simp

theorem checkValue_value (lib : JoiLib) (prefs : Prefs) (s : KeySchema) (v : JsVal) :
    (checkValue lib prefs s v).value = v := by
  unfold checkValue
  split
  · rfl
  · split <;> rfl

theorem coerceKey_string (lib : JoiLib) (prefs : Prefs) (item : JsVal) :
    coerceKey lib prefs BaseType.string item = (item, none) := by
  simp [coerceKey]

theorem coerceKey_num (lib : JoiLib) (prefs : Prefs) (base : BaseType) (n : JsNum) :
    coerceKey lib prefs base (JsVal.num n) = (JsVal.num n, none) := by
  cases base <;> simp [coerceKey]

theorem coerceKey_cases (lib : JoiLib) (prefs : Prefs) (base : BaseType) (item : JsVal) :
    coerceKey lib prefs base item = (item, none) ∨
    (∃ t n, item = JsVal.str t ∧ base = BaseType.number ∧ prefs.convert = true ∧
      lib.coerceNumber t = Coerced.value n ∧
      coerceKey lib prefs base item = (JsVal.num n, none)) ∨
    (∃ v code, coerceKey lib prefs base item = (v, some code)) := by
  cases base with
  | string => exact Or.inl (coerceKey_string lib prefs item)
  | number =>
    cases item with
    | str t =>
      cases hc : prefs.convert with
      | false => exact Or.inl (by simp [coerceKey, hc])
      | true =>
        cases hn : lib.coerceNumber t with
        | noMatch => exact Or.inl (by simp [coerceKey, hc, hn])
        | value n => exact Or.inr (Or.inl ⟨t, n, rfl, rfl, rfl, hn, by simp [coerceKey, hc, hn]⟩)
        | lossy n =>
          exact Or.inr (Or.inr ⟨JsVal.num n, "number.unsafe", by simp [coerceKey, hc, hn]⟩)
    | _ => exact Or.inl (by simp [coerceKey])

theorem validateKey_idem (lib : JoiLib) (prefs : Prefs) (s : KeySchema) (item : JsVal)
    (h : (validateKey lib prefs s item).errors = []) :
    validateKey lib prefs s (validateKey lib prefs s item).value =
      validateKey lib prefs s item := by
  rcases coerceKey_cases lib prefs s.base item with h1 | ⟨t, n, _, _, _, _, h2⟩ | ⟨v, code, h3⟩
  · have hv : validateKey lib prefs s item = checkValue lib prefs s item := by
      simp [validateKey, h1]
    rw [hv, checkValue_value, ← hv]
  · have hv : validateKey lib prefs s item = checkValue lib prefs s (JsVal.num n) := by
      simp [validateKey, h2]
    rw [hv, checkValue_value]
    simp [validateKey, coerceKey_num]
  · simp [validateKey, h3] at h

theorem validateKey_string_value (lib : JoiLib) (prefs : Prefs) (s : KeySchema) (item : JsVal)
    (hs : s.base = BaseType.string) : (validateKey lib prefs s item).value = item := by
  simp [validateKey, hs, coerceKey_string, checkValue_value]

theorem validateKey_required_defined (lib : JoiLib) (prefs : Prefs) (s : KeySchema)
    (item : JsVal) (hr : s.required = true)
    (h : (validateKey lib prefs s item).errors = []) :
    isUndefined item = false ∧ isUndefined (validateKey lib prefs s item).value = false := by
  rcases coerceKey_cases lib prefs s.base item with h1 | ⟨t, n, ht, _, _, _, h2⟩ | ⟨v, code, h3⟩
  · have hv : validateKey lib prefs s item = checkValue lib prefs s item := by
      simp [validateKey, h1]
    rw [hv] at h ⊢
    rw [checkValue_value]
    cases hu : isUndefined item with
    | false => exact ⟨rfl, rfl⟩
    | true => simp [checkValue, hu, hr] at h
  · have hv : validateKey lib prefs s item = checkValue lib prefs s (JsVal.num n) := by
      simp [validateKey, h2]
    rw [hv, checkValue_value, ht]
    exact ⟨rfl, rfl⟩
  · simp [validateKey, h3] at h

theorem setProp_getProp_self (o : List (String × JsVal)) (k : String)
    (h : isUndefined (getProp o k) = false) : setProp o k (getProp o k) = o := by
  induction o with
  | nil => simp [getProp, isUndefined] at h
  | cons p rest ih =>
    obtain ⟨k1, w⟩ := p
    by_cases hk : k1 = k
    · simp [setProp, getProp, hk]
    · simp only [getProp, hk, if_false] at h
      simp [setProp, getProp, hk, ih h]

theorem writeBack_self (o : List (String × JsVal)) (k : String) (r : KeyResult)
    (h : r.value = getProp o k) : writeBack o k r = o := by
  unfold writeBack
  split
  · rfl
  · next hu =>
    rw [h]
    apply setProp_getProp_self
    rw [← h]
    simpa using hu

theorem keys_setProp_of_defined (o : List (String × JsVal)) (k : String) (v : JsVal)
    (h : isUndefined (getProp o k) = false) :
    (setProp o k v).map Prod.fst = o.map Prod.fst := by
  induction o with
  | nil => simp [getProp, isUndefined] at h
  | cons p rest ih =>
    obtain ⟨k1, w⟩ := p
    by_cases hk : k1 = k
    · simp [setProp, hk]
    · simp only [getProp, hk, if_false] at h
      simp [setProp, hk, ih h]

theorem validateKeys_cons_ok (lib : JoiLib) (prefs : Prefs) (k : String) (s : KeySchema)
    (rest : List (String × KeySchema)) (value : List (String × JsVal)) (errs : List Violation)
    (h : (validateKey lib prefs s (getProp value k)).errors = []) :
    validateKeys lib prefs ((k, s) :: rest) value errs =
      validateKeys lib prefs rest
        (writeBack value k (validateKey lib prefs s (getProp value k))) errs := by
  simp [validateKeys, h]

theorem checkValue_id_ok (lib : JoiLib) (prefs : Prefs) (v : JsVal)
    (h : (checkValue lib prefs (KeySchema.mk BaseType.number [Rule.positive] true) v).errors
      = []) :
    ∃ m e, v = JsVal.num (JsNum.fin m e) ∧ 0 < m := by
  cases v with
  | num n =>
    cases n with
    | fin m e =>
      refine ⟨m, e, rfl, ?_⟩
      by_contra hm
      cases hsafe : outOfSafeRange (JsNum.fin m e) <;>
        cases hab : prefs.abortEarly <;>
        simp [checkValue, isUndefined, baseCheck, hsafe, runRules, checkRule, gtZero, hm,
          hab] at h
    | nan => simp [checkValue, isUndefined, baseCheck] at h
    | posInf => simp [checkValue, isUndefined, baseCheck] at h
    | negInf => simp [checkValue, isUndefined, baseCheck] at h
  | undefined => simp [checkValue, isUndefined] at h
  | null => simp [checkValue, isUndefined, baseCheck] at h
  | bool b => simp [checkValue, isUndefined, baseCheck] at h
  | str t => simp [checkValue, isUndefined, baseCheck] at h
  | arr a => simp [checkValue, isUndefined, baseCheck] at h
  | obj a => simp [checkValue, isUndefined, baseCheck] at h

theorem userSchema_keys_nodup : (userSchema.map Prod.fst).Nodup := by
  decide

theorem allViolations_nil_of_accepted (lib : JoiLib) (prefs : Prefs)
    (schema : List (String × KeySchema)) (hnd : (schema.map Prod.fst).Nodup)
    (c : List (String × JsVal)) (h : (validate lib prefs schema c).errors = []) :
    allViolations lib prefs schema c = [] := by
  rw [validate_errors lib prefs schema hnd c] at h
  split at h
  · cases hall : allViolations lib prefs schema c with
    | nil => rfl
    | cons e tl => simp [hall] at h
  · exact h

theorem accepted_userSchema_keys (lib : JoiLib) (prefs : Prefs) (c : List (String × JsVal))
    (h : (validate lib prefs userSchema c).errors = []) :
    (validateKey lib prefs (KeySchema.mk BaseType.number [Rule.positive] true)
      (getProp c "id")).errors = [] ∧
    (validateKey lib prefs (KeySchema.mk BaseType.string [Rule.min 3, Rule.max 100] true)
      (getProp c "name")).errors = [] ∧
    (validateKey lib prefs (KeySchema.mk BaseType.string [Rule.email] true)
      (getProp c "email")).errors = [] ∧
    unknownErrors prefs userSchema c = [] := by
  have hall := allViolations_nil_of_accepted lib prefs userSchema userSchema_keys_nodup c h
  simpa [allViolations, keyErrors, userSchema, and_assoc] using hall

theorem userSchema_id_cases (lib : JoiLib) (prefs : Prefs) (item : JsVal)
    (h : (validateKey lib prefs (KeySchema.mk BaseType.number [Rule.positive] true)
      item).errors = []) :
    ∃ m e, 0 < m ∧
      (validateKey lib prefs (KeySchema.mk BaseType.number [Rule.positive] true) item).value =
        JsVal.num (JsNum.fin m e) ∧
      (item = JsVal.num (JsNum.fin m e) ∨
        ∃ t, item = JsVal.str t ∧ prefs.convert = true ∧
          lib.coerceNumber t = Coerced.value (JsNum.fin m e)) := by
  rcases coerceKey_cases lib prefs BaseType.number item with
    h1 | ⟨t, n, ht, _, hc, hn, h2⟩ | ⟨v, code, h3⟩
  · have hv : validateKey lib prefs (KeySchema.mk BaseType.number [Rule.positive] true) item =
        checkValue lib prefs (KeySchema.mk BaseType.number [Rule.positive] true) item := by
      simp [validateKey, h1]
    rw [hv] at h ⊢
    obtain ⟨m, e, hme, hpos⟩ := checkValue_id_ok lib prefs item h
    exact ⟨m, e, hpos, by rw [checkValue_value, hme], Or.inl hme⟩
  · have hv : validateKey lib prefs (KeySchema.mk BaseType.number [Rule.positive] true) item =
        checkValue lib prefs (KeySchema.mk BaseType.number [Rule.positive] true)
          (JsVal.num n) := by
      simp [validateKey, h2]
    rw [hv] at h ⊢
    obtain ⟨m, e, hme, hpos⟩ := checkValue_id_ok lib prefs (JsVal.num n) h
    have hn2 : n = JsNum.fin m e := by
      injection hme
    exact ⟨m, e, hpos, by rw [checkValue_value, hme], Or.inr ⟨t, ht, hc, by rw [hn, hn2]⟩⟩
  · simp [validateKey, h3] at h

/-- C8 as stated fails: the candidate with the id `1.5` (the number
`3 * 2 ^ (-1)`), a valid name and a valid email is accepted. -/
theorem fractional_id_accepted_counterexample :
    getProp fractionalId "id" = JsVal.num (JsNum.fin 3 (-1)) ∧
    (validate exampleLib defaultPrefs userSchema fractionalId).errors = [] := by
  exact ⟨rfl, by decide⟩

/-- C8 (amended): `userSchema` accepts an id only if it is a positive number,
integer or not, or, with Joi's conversion on, a string that Joi converts to a
positive number: every candidate whose id is zero or a negative number is
rejected, whatever its name and email are. -/
theorem userSchema_id_positive_number (lib : JoiLib) (prefs : Prefs)
    (c : List (String × JsVal)) :
    (∀ m e : Int, getProp c "id" = JsVal.num (JsNum.fin m e) → m ≤ 0 →
      (validate lib prefs userSchema c).errors ≠ []) ∧
    ((validate lib prefs userSchema c).errors = [] →
      ∃ m e : Int, 0 < m ∧
        (getProp c "id" = JsVal.num (JsNum.fin m e) ∨
          ∃ t, getProp c "id" = JsVal.str t ∧ prefs.convert = true ∧
            lib.coerceNumber t = Coerced.value (JsNum.fin m e))) := by
  have key : (validate lib prefs userSchema c).errors = [] →
      ∃ m e : Int, 0 < m ∧
        (getProp c "id" = JsVal.num (JsNum.fin m e) ∨
          ∃ t, getProp c "id" = JsVal.str t ∧ prefs.convert = true ∧
            lib.coerceNumber t = Coerced.value (JsNum.fin m e)) := by
    intro h
    obtain ⟨m, e, hpos, _, hcase⟩ :=
      userSchema_id_cases lib prefs (getProp c "id") (accepted_userSchema_keys lib prefs c h).1
    exact ⟨m, e, hpos, hcase⟩
  refine ⟨fun m e hid hm hacc => ?_, key⟩
  obtain ⟨m2, e2, hpos, hcase⟩ := key hacc
  rcases hcase with h1 | ⟨t, ht, _, _⟩
  · rw [hid] at h1
    injection h1 with h2
    injection h2 with h3 _
    omega
  · rw [hid] at ht
    cases ht

/-- Witness of amended C8: the ids `0` and `-2` with a valid name and a valid
email are rejected. -/
theorem userSchema_id_positive_number_witness :
    (validate exampleLib defaultPrefs userSchema
      [("id", JsVal.num (JsNum.fin 0 0)), ("name", JsVal.str "Ann"),
       ("email", JsVal.str "ann@example.com")]).errors ≠ [] ∧
    (validate exampleLib defaultPrefs userSchema
      [("id", JsVal.num (JsNum.fin (-2) 0)), ("name", JsVal.str "Ann"),
       ("email", JsVal.str "ann@example.com")]).errors ≠ [] :=
  ⟨(userSchema_id_positive_number exampleLib defaultPrefs
      [("id", JsVal.num (JsNum.fin 0 0)), ("name", JsVal.str "Ann"),
       ("email", JsVal.str "ann@example.com")]).1 0 0 rfl (by decide),
   (userSchema_id_positive_number exampleLib defaultPrefs
      [("id", JsVal.num (JsNum.fin (-2) 0)), ("name", JsVal.str "Ann"),
       ("email", JsVal.str "ann@example.com")]).1 (-2) 0 rfl (by decide)⟩

theorem validateKeys_userSchema_ok (lib : JoiLib) (prefs : Prefs) (o : List (String × JsVal))
    (errs : List Violation)
    (h1 : (validateKey lib prefs (KeySchema.mk BaseType.number [Rule.positive] true)
      (getProp o "id")).errors = [])
    (h2 : (validateKey lib prefs (KeySchema.mk BaseType.string [Rule.min 3, Rule.max 100] true)
      (getProp o "name")).errors = [])
    (h3 : (validateKey lib prefs (KeySchema.mk BaseType.string [Rule.email] true)
      (getProp o "email")).errors = []) :
    validateKeys lib prefs userSchema o errs =
      Flow.cont (writeBack o "id"
        (validateKey lib prefs (KeySchema.mk BaseType.number [Rule.positive] true)
          (getProp o "id"))) errs := by
  have hn : getProp (writeBack o "id"
      (validateKey lib prefs (KeySchema.mk BaseType.number [Rule.positive] true)
        (getProp o "id"))) "name" = getProp o "name" :=
    getProp_writeBack_ne o "id" "name" _ (by decide)
  have he : getProp (writeBack o "id"
      (validateKey lib prefs (KeySchema.mk BaseType.number [Rule.positive] true)
        (getProp o "id"))) "email" = getProp o "email" :=
    getProp_writeBack_ne o "id" "email" _ (by decide)
  unfold userSchema
  rw [validateKeys_cons_ok lib prefs "id" _ _ o errs h1]
  rw [validateKeys_cons_ok lib prefs "name" _ _ _ errs (by rw [hn]; exact h2)]
  rw [writeBack_self _ "name" _ (validateKey_string_value lib prefs _ _ rfl)]
  rw [validateKeys_cons_ok lib prefs "email" _ _ _ errs (by rw [he]; exact h3)]
  rw [writeBack_self _ "email" _ (validateKey_string_value lib prefs _ _ rfl)]
  rfl

theorem validate_of_cont (lib : JoiLib) (prefs : Prefs) (schema : List (String × KeySchema))
    (o v : List (String × JsVal))
    (hk : validateKeys lib prefs schema o [] = Flow.cont v [])
    (hu : unknownErrors prefs schema o = []) :
    validate lib prefs schema o = Validation.mk v [] := by
  unfold validate
  rw [hk]
  by_cases ha : prefs.allowUnknown = true
  · simp [ha]
  · have hkeys : unknownKeys schema o = [] := by
      simpa [unknownErrors, ha] using hu
    simp [ha, hkeys, reportUnknown]

theorem unknownErrors_setProp (prefs : Prefs) (schema : List (String × KeySchema))
    (o : List (String × JsVal)) (k : String) (v : JsVal)
    (h : isUndefined (getProp o k) = false) :
    unknownErrors prefs schema (setProp o k v) = unknownErrors prefs schema o := by
  simp [unknownErrors, unknownKeys, ownKeys, keys_setProp_of_defined o k v h]

/-- C10: for every candidate that `userSchema` accepts, validating the resulting
record again reports no violation and yields the same record. -/
theorem validate_idempotent (lib : JoiLib) (prefs : Prefs) (c : List (String × JsVal))
    (h : (validate lib prefs userSchema c).errors = []) :
    (validate lib prefs userSchema (validate lib prefs userSchema c).value).errors = [] ∧
    (validate lib prefs userSchema (validate lib prefs userSchema c).value).value =
      (validate lib prefs userSchema c).value := by
  obtain ⟨h1, h2, h3, hu⟩ := accepted_userSchema_keys lib prefs c h
  obtain ⟨hdef, hrdef⟩ := validateKey_required_defined lib prefs
    (KeySchema.mk BaseType.number [Rule.positive] true) (getProp c "id") rfl h1
  have hfirst := validate_of_cont lib prefs userSchema c _
    (validateKeys_userSchema_ok lib prefs c [] h1 h2 h3) hu
  have hwb : writeBack c "id"
      (validateKey lib prefs (KeySchema.mk BaseType.number [Rule.positive] true)
        (getProp c "id")) =
      setProp c "id" (validateKey lib prefs (KeySchema.mk BaseType.number [Rule.positive] true)
        (getProp c "id")).value := by
    simp [writeBack, hrdef]
  rw [hfirst]
  simp only []
  rw [hwb]
  have gid := getProp_setProp_eq c "id"
    (validateKey lib prefs (KeySchema.mk BaseType.number [Rule.positive] true)
      (getProp c "id")).value
  have gname := getProp_setProp_ne c "id" "name"
    (validateKey lib prefs (KeySchema.mk BaseType.number [Rule.positive] true)
      (getProp c "id")).value (by decide)
  have gemail := getProp_setProp_ne c "id" "email"
    (validateKey lib prefs (KeySchema.mk BaseType.number [Rule.positive] true)
      (getProp c "id")).value (by decide)
  have hidem := validateKey_idem lib prefs
    (KeySchema.mk BaseType.number [Rule.positive] true) (getProp c "id") h1
  have hsecond := validate_of_cont lib prefs userSchema
    (setProp c "id" (validateKey lib prefs (KeySchema.mk BaseType.number [Rule.positive] true)
      (getProp c "id")).value) _
    (validateKeys_userSchema_ok lib prefs _ []
      (by rw [gid, hidem]; exact h1) (by rw [gname]; exact h2) (by rw [gemail]; exact h3))
    (by rw [unknownErrors_setProp prefs userSchema c "id" _ hdef]; exact hu)
  rw [hsecond]
  refine ⟨rfl, ?_⟩
  simp only []
  apply writeBack_self
  rw [gid, hidem]

/-- Witness of C10: a candidate whose id is the string `42`, which Joi converts
to a number, and one with the id `1.5`. -/
theorem validate_idempotent_witness :
    (validate exampleLib defaultPrefs userSchema
      (validate exampleLib defaultPrefs userSchema
        [("id", JsVal.str "42"), ("name", JsVal.str "Ann"),
         ("email", JsVal.str "ann@example.com")]).value).errors = [] ∧
    (validate exampleLib defaultPrefs userSchema
      (validate exampleLib defaultPrefs userSchema fractionalId).value).errors = [] :=
  ⟨(validate_idempotent exampleLib defaultPrefs
      [("id", JsVal.str "42"), ("name", JsVal.str "Ann"),
       ("email", JsVal.str "ann@example.com")] (by decide)).1,
   (validate_idempotent exampleLib defaultPrefs fractionalId (by decide)).1⟩

end AdmissionPipeline
